import Mathlib

/-!
Verification of the routing and resilience pipeline of the
sre-inference-gateway repository, as a shallow embedding in Lean.

Python floats (times, waits, weights) are embedded as rationals (ℚ);
machine state mutated behind the per-breaker asyncio lock is embedded
as explicit state passing, with each lock-held critical section of
`circuit_breaker.py` one atomic step of a labelled transition system.
-/

namespace Gateway

/-! ## Circuit breaker (src/app/router/circuit_breaker.py) -/

/-- States of `CircuitBreakerState` (CLOSED = 0, OPEN = 1, HALF_OPEN = 2). -/
inductive CBState where
  | closed
  | opened
  | halfOpen
deriving DecidableEq, Repr

/-- `CircuitBreakerConfig` from src/app/config/models.py: `failure_threshold`
(int, ge=1) and `recovery_timeout` (float, gt=0). -/
structure CircuitBreakerConfig where
  failure_threshold : ℕ
  recovery_timeout : ℚ
deriving DecidableEq, Repr

/-- Mutable fields of the `CircuitBreaker` object: `state`, `failure_count`,
`last_failure_time` and `_half_open_in_flight`. -/
structure CircuitBreaker where
  state : CBState
  failure_count : ℕ
  last_failure_time : Option ℚ
  half_open_in_flight : Bool
deriving DecidableEq, Repr

/-- `CircuitBreaker.__init__`: state CLOSED, failure_count 0,
last_failure_time None, _half_open_in_flight False. -/
def initialBreaker : CircuitBreaker :=
  ⟨CBState.closed, 0, none, false⟩

/-- `CircuitBreaker._should_attempt_reset`: True when `last_failure_time` is
None, otherwise when `now - last_failure_time >= recovery_timeout`. -/
def shouldAttemptReset (cfg : CircuitBreakerConfig) (cb : CircuitBreaker)
    (now : ℚ) : Bool :=
  match cb.last_failure_time with
  | none => true
  | some t => decide (cfg.recovery_timeout ≤ now - t)

/-- The lock-held admission section at the top of `CircuitBreaker.call`.
Returns the updated breaker and whether the wrapped function is invoked;
`false` means `CircuitBreakerOpenException` is raised without invoking it.
OPEN: transition to HALF_OPEN with the in-flight flag set when
`_should_attempt_reset`, else raise; HALF_OPEN with a probe in flight:
raise; otherwise fall through and invoke. -/
def cbBegin (cfg : CircuitBreakerConfig) (cb : CircuitBreaker) (now : ℚ) :
    CircuitBreaker × Bool :=
  if cb.state = CBState.opened then
    if shouldAttemptReset cfg cb now then
      ({ cb with state := CBState.halfOpen, half_open_in_flight := true }, true)
    else (cb, false)
  else if cb.state = CBState.halfOpen ∧ cb.half_open_in_flight = true then
    (cb, false)
  else (cb, true)

/-- `CircuitBreaker._on_success`: from HALF_OPEN close the circuit and clear
everything; in CLOSED reset the failure count; otherwise unchanged. -/
def onSuccess (cb : CircuitBreaker) : CircuitBreaker :=
  if cb.state = CBState.halfOpen then
    ⟨CBState.closed, 0, none, false⟩
  else if cb.state = CBState.closed then
    { cb with failure_count := 0 }
  else cb

/-- `CircuitBreaker._on_failure`: increment `failure_count`, stamp
`last_failure_time`, clear the in-flight flag when HALF_OPEN, then open the
circuit when the state is CLOSED or HALF_OPEN and the count has reached
`failure_threshold`. -/
def onFailure (cfg : CircuitBreakerConfig) (cb : CircuitBreaker) (now : ℚ) :
    CircuitBreaker :=
  let cb1 := { cb with
    failure_count := cb.failure_count + 1, last_failure_time := some now }
  let cb2 :=
    if cb1.state = CBState.halfOpen then
      { cb1 with half_open_in_flight := false }
    else cb1
  if (cb2.state = CBState.closed ∨ cb2.state = CBState.halfOpen) ∧
      cfg.failure_threshold ≤ cb2.failure_count then
    { cb2 with state := CBState.opened }
  else cb2

/-- One sequential `CircuitBreaker.call` whose wrapped function fails at time
`t`: the admission section followed, when the function was invoked, by
`_on_failure`. -/
def failingCall (cfg : CircuitBreakerConfig) (cb : CircuitBreaker) (t : ℚ) :
    CircuitBreaker :=
  let r := cbBegin cfg cb t
  if r.2 then onFailure cfg r.1 t else r.1

/-! ### Interleaved executions of `CircuitBreaker.call`

The wrapped function runs outside the lock, so several calls can be in
flight at once.  A global state is the breaker plus the list of admitted
calls that have not yet resolved; each list entry records whether the call
was admitted as the recovery probe (through the OPEN → HALF_OPEN branch).
Events are the three lock-held critical sections of `CircuitBreaker.call`. -/

/-- The breaker plus the in-flight calls admitted but not yet resolved
(entry = `true` when the call was admitted as the HALF_OPEN probe). -/
structure GState where
  cb : CircuitBreaker
  running : List Bool
deriving DecidableEq, Repr

/-- Atomic events of a breaker history: a call arriving at time `t`, or an
in-flight call (by index) resolving with success or with failure at `t`. -/
inductive CBEvent where
  | callArrives (t : ℚ)
  | finishOk (i : ℕ)
  | finishFail (i : ℕ) (t : ℚ)
deriving DecidableEq, Repr

/-- Apply one event: admission per `cbBegin` (a rejected call leaves the
state unchanged apart from the admission section itself), resolution per
`_on_success` / `_on_failure` removing the call from the in-flight list. -/
def applyEvent (cfg : CircuitBreakerConfig) (s : GState) : CBEvent → GState
  | CBEvent.callArrives t =>
    let r := cbBegin cfg s.cb t
    if r.2 then ⟨r.1, s.running ++ [decide (s.cb.state = CBState.opened)]⟩
    else ⟨r.1, s.running⟩
  | CBEvent.finishOk i =>
    if i < s.running.length then ⟨onSuccess s.cb, s.running.eraseIdx i⟩
    else s
  | CBEvent.finishFail i t =>
    if i < s.running.length then ⟨onFailure cfg s.cb t, s.running.eraseIdx i⟩
    else s

/-- A breaker history from the freshly constructed breaker. -/
def runTrace (cfg : CircuitBreakerConfig) (es : List CBEvent) : GState :=
  es.foldl (applyEvent cfg) ⟨initialBreaker, []⟩

/-! ## Retry layer (src/app/router/retry.py) -/

/-- The Python exceptions distinguished by `classify_http_exception` and
`RetryHandler.execute_with_retry`: `fastapi.HTTPException` carrying its
status code, the network exceptions, `ValueError`/`TypeError`, the module's
own `RetryableException` / `NonRetryableException` (the latter carrying its
`status_code`), and anything else. `TimeoutError` and `asyncio.TimeoutError`
are one class on Python 3.11+. -/
inductive PyExn where
  | httpExc (status : ℕ)
  | connectionError
  | timeoutError
  | valueError
  | typeError
  | retryableExc
  | nonRetryableExc (status : ℕ)
  | otherExc
deriving DecidableEq, Repr

/-- The `isinstance(exception, non_retryable_exceptions)` check:
ValueError, TypeError, NonRetryableException. -/
def isNonRetryableInstance : PyExn → Bool
  | PyExn.valueError => true
  | PyExn.typeError => true
  | PyExn.nonRetryableExc _ => true
  | _ => false

/-- The `isinstance(exception, retryable_exceptions)` check: ConnectionError,
TimeoutError, asyncio.TimeoutError, RetryableException. -/
def isRetryableInstance : PyExn → Bool
  | PyExn.connectionError => true
  | PyExn.timeoutError => true
  | PyExn.retryableExc => true
  | _ => false

/-- The tail of `classify_http_exception` after the HTTPException status
checks: non-retryable instances first, then retryable instances, then the
default False for unknown exceptions. -/
def classifyFallthrough (e : PyExn) : Bool :=
  if isNonRetryableInstance e then false
  else if isRetryableInstance e then true
  else false

/-- `classify_http_exception`: for an HTTPException, 429 and 408 are
retryable, other 4xx are not, 5xx are; statuses outside those ranges fall
through to the instance checks (where an HTTPException matches nothing,
giving the default False). -/
def classify_http_exception (e : PyExn) : Bool :=
  match e with
  | PyExn.httpExc s =>
    if s = 429 ∨ s = 408 then true
    else if 400 ≤ s ∧ s < 500 then false
    else if 500 ≤ s ∧ s < 600 then true
    else classifyFallthrough (PyExn.httpExc s)
  | _ => classifyFallthrough e

/-- `RetryConfig` from src/app/config/models.py. -/
structure RetryConfig where
  max_attempts : ℕ
  min_wait : ℚ
  max_wait : ℚ
  exponential_base : ℚ
  jitter : Bool
deriving DecidableEq, Repr

/-- tenacity's `wait_exponential.__call__` with the default multiplier 1
(RetryHandler passes only `exp_base`, `min` and `max`):
`max(max(0, min), min(exp_base ** (attempt_number - 1), max))`.  Per the
library (tenacity wait.py) the intervals are fixed: there is no jitter. -/
def tenacityWaitExponential (exp_base mn mx : ℚ) (attempt_number : ℕ) : ℚ :=
  max (max 0 mn) (min (exp_base ^ (attempt_number - 1)) mx)

/-- `RetryHandler._wait_exponential_no_jitter`:
`min(min_wait * exponential_base ** (attempt_number - 1), max_wait)`. -/
def wait_exponential_no_jitter (cfg : RetryConfig) (attempt_number : ℕ) : ℚ :=
  min (cfg.min_wait * cfg.exponential_base ^ (attempt_number - 1)) cfg.max_wait

/-- The wait strategy chosen in `RetryHandler.__init__`: tenacity's
`wait_exponential` when `config.jitter` is set, else the custom no-jitter
strategy.  Both are deterministic functions of the attempt number. -/
def waitTime (cfg : RetryConfig) (attempt_number : ℕ) : ℚ :=
  if cfg.jitter then
    tenacityWaitExponential cfg.exponential_base cfg.min_wait cfg.max_wait
      attempt_number
  else wait_exponential_no_jitter cfg attempt_number

/-- Result of one invocation of the wrapped function. -/
inductive CallOutcome (α : Type) where
  | ok (v : α)
  | err (e : PyExn)
deriving DecidableEq, Repr

/-- The status code chosen in `execute_with_retry` for a non-retryable
exception: the HTTPException's own code, 400 for ValueError/TypeError,
500 otherwise. -/
def nonRetryableStatus : PyExn → ℕ
  | PyExn.httpExc s => s
  | PyExn.valueError => 400
  | PyExn.typeError => 400
  | _ => 500

/-- Final outcome of `RetryHandler.execute_with_retry`: the value, a raised
`NonRetryableException` wrapping the original exception, or — all attempts
exhausted — the original exception re-raised by tenacity (`reraise=True`). -/
inductive RetryFinal (α : Type) where
  | ok (v : α)
  | nonRetryable (status : ℕ) (orig : PyExn)
  | exhausted (e : PyExn)
deriving DecidableEq, Repr

/-- A run of the retry loop: its outcome, how many times the wrapped
function was invoked, and the backoff waits slept between attempts. -/
structure RetryRun (α : Type) where
  result : RetryFinal α
  invocations : ℕ
  waits : List ℚ
deriving DecidableEq, Repr

/-- The tenacity `AsyncRetrying` loop as driven by `execute_with_retry`
(`stop=stop_after_attempt(max_attempts)`, `retry=_should_retry`,
`reraise=True`): attempt `n` invokes `f n`; success returns; a
non-retryable exception raises `NonRetryableException` at once; a retryable
one re-raises, and tenacity then either stops (fuel exhausted, i.e.
`attempt_number >= max_attempt_number`) re-raising the original exception,
or sleeps `waitTime` and retries.  `fuel` is the number of retries still
allowed, `ws` the backoff waits accumulated in reverse. -/
def retryGo {α : Type} (cfg : RetryConfig) (f : ℕ → CallOutcome α) :
    ℕ → ℕ → List ℚ → RetryRun α
  | fuel, n, ws =>
    match f n with
    | CallOutcome.ok v => ⟨RetryFinal.ok v, n, ws.reverse⟩
    | CallOutcome.err e =>
      if classify_http_exception e then
        match fuel with
        | 0 => ⟨RetryFinal.exhausted e, n, ws.reverse⟩
        | fuel' + 1 => retryGo cfg f fuel' (n + 1) (waitTime cfg n :: ws)
      else ⟨RetryFinal.nonRetryable (nonRetryableStatus e) e, n, ws.reverse⟩

/-- `RetryHandler.execute_with_retry` over a wrapped function whose
invocation `n` yields `f n`: first attempt number 1, at most
`max_attempts - 1` retries after it. -/
def execute_with_retry {α : Type} (cfg : RetryConfig)
    (f : ℕ → CallOutcome α) : RetryRun α :=
  retryGo cfg f (cfg.max_attempts - 1) 1 []

/-! ## Resilience composer (src/app/router/resilience.py) -/

/-- `ResilienceConfig`: circuit breaker plus retry tuning. -/
structure ResilienceConfig where
  circuit_breaker : CircuitBreakerConfig
  retry : RetryConfig
deriving DecidableEq, Repr

/-- Outward result of `ResilienceHandler.execute_with_resilience`: the
value, or the raised `fastapi.HTTPException`'s status code. -/
inductive ResilienceResult (α : Type) where
  | ok (v : α)
  | httpError (status : ℕ)
deriving DecidableEq, Repr

/-- `ResilienceHandler.execute_with_resilience`: the breaker wraps the retry
loop.  A short-circuited call (`CircuitBreakerOpenException`) becomes 503; a
`NonRetryableException` surfaces its own `status_code` (always an int on
that class, so the regex fallback is unreachable); every other final
exception — in particular any exhausted transient re-raised by tenacity —
falls into the generic handler and becomes 502.  `tCall` is the admission
time, `tFail` the failure time stamped by `_on_failure`. -/
def execute_with_resilience {α : Type} (cfg : ResilienceConfig)
    (cb : CircuitBreaker) (tCall tFail : ℚ) (f : ℕ → CallOutcome α) :
    ResilienceResult α × CircuitBreaker :=
  let r := cbBegin cfg.circuit_breaker cb tCall
  if r.2 then
    match (execute_with_retry cfg.retry f).result with
    | RetryFinal.ok v => (ResilienceResult.ok v, onSuccess r.1)
    | RetryFinal.nonRetryable s _ =>
      (ResilienceResult.httpError s, onFailure cfg.circuit_breaker r.1 tFail)
    | RetryFinal.exhausted _ =>
      (ResilienceResult.httpError 502, onFailure cfg.circuit_breaker r.1 tFail)
  else (ResilienceResult.httpError 503, r.1)

/-! ## Router (src/app/router/router.py)

Adapters are identified by their registered name; the registry snapshot is
the list of registered names.  The weights dict keeps insertion order, so
it is a list of name–weight pairs.  `random.choices` draws
`u = random() * total ∈ [0, total)` and picks the first entry whose
cumulative weight exceeds `u`, the last entry when none does (the
`hi = len - 1` clamp of the bisect call); that scan is `weightedPick`.
`random.choice` for the all-zero-weights case is an arbitrary index,
embedded as `idx % length`. -/

/-- `random.choices(population, weights=ws)[0]` for a draw `u`: first pair
whose weight bucket contains `u`, scanning with the running remainder; the
final singleton is the bisect clamp to the last index. -/
def weightedPick : List (String × ℚ) → ℚ → Option (String × ℚ)
  | [], _ => none
  | [p], _ => some p
  | p :: q :: rest, u =>
    if u < p.2 then some p else weightedPick (q :: rest) (u - p.2)

/-- `RequestRouter._validate_weights`: reject an empty dict, any negative
weight, and a non-positive total; then normalize each weight by the total. -/
def validateWeights (w : List (String × ℚ)) :
    Except String (List (String × ℚ)) :=
  if w.isEmpty then Except.error "Provider weights cannot be empty"
  else if w.any (fun p => p.2 < 0) then
    Except.error "Provider weights cannot be negative"
  else
    let total := (w.map Prod.snd).sum
    if total ≤ 0 then Except.error "Total provider weights must be positive"
    else Except.ok (w.map (fun p => (p.1, p.2 / total)))

/-- The weighted-random part of `RequestRouter.select_provider`: filter the
weighted names to those that resolve in the registry; None when the list is
empty; `random.choice` (uniform) when the resolving weights sum to zero;
`random.choices` (weighted) otherwise. -/
def selectWeighted (weights : List (String × ℚ)) (registered : List String)
    (u : ℚ) (uniformIdx : ℕ) : Option String :=
  let available := weights.filter (fun p => registered.contains p.1)
  if available = [] then none
  else if (available.map Prod.snd).sum = 0 then
    (available[uniformIdx % available.length]?).map Prod.fst
  else (weightedPick available u).map Prod.fst

/-- `RequestRouter.select_provider`: a truthy (non-None, non-empty)
`provider_priority` that resolves in the registry is returned directly;
otherwise weighted selection. -/
def select_provider (weights : List (String × ℚ)) (registered : List String)
    (provider_priority : Option String) (u : ℚ) (uniformIdx : ℕ) :
    Option String :=
  match provider_priority with
  | some p =>
    if p ≠ "" ∧ registered.contains p = true then some p
    else selectWeighted weights registered u uniformIdx
  | none => selectWeighted weights registered u uniformIdx

/-! ## Provider registry (src/app/providers/registry.py) -/

/-- An adapter as the registry sees it: its name and whether its HTTP
client has been closed. -/
structure Provider where
  pname : String
  closedClient : Bool
deriving DecidableEq, Repr

/-- The slice of `ProviderConfig` that `initialize_from_config` reads. -/
structure ProviderConfig where
  name : String
  enabled : Bool
deriving DecidableEq, Repr

/-- `ProviderRegistry.register_provider`: dict assignment
`self._providers[name] = provider` (replace an existing key, else append). -/
def registerProvider (m : List (String × Provider)) (name : String)
    (p : Provider) : List (String × Provider) :=
  if m.any (fun q => q.1 = name) then
    m.map (fun q => if q.1 = name then (name, p) else q)
  else m ++ [(name, p)]

/-- Result of `initialize_from_config`: the rebuilt registry and the names
of the providers whose `close` was invoked during it (none: the method
only calls `self._providers.clear()`). -/
structure InitResult where
  registry : List (String × Provider)
  closeCalls : List String
deriving DecidableEq, Repr

/-- `ProviderRegistry.initialize_from_config`: clear the existing dict
(no `close` is called on the dropped adapters), then walk the configs in
order, skipping disabled ones, registering each successfully constructed
adapter and continuing past individual construction failures.
`factory` is `ProviderFactory.create_provider`, which may raise. -/
def initialize_from_config (factory : ProviderConfig → Except String Provider)
    (old : List (String × Provider)) (cfgs : List ProviderConfig) :
    InitResult :=
  let _ := old
  let reg := cfgs.foldl (fun acc cfg =>
    if cfg.enabled then
      match factory cfg with
      | Except.ok p => registerProvider acc cfg.name p
      | Except.error _ => acc
    else acc) []
  ⟨reg, []⟩

/-- `ProviderRegistry.close_all`: invokes `close` on every registered
adapter (returning the names closed, in order). -/
def close_all (m : List (String × Provider)) : List String :=
  m.map Prod.fst

/-! ## Readiness (src/app/api/health.py, `readiness_check`) -/

/-- The response of GET /ready: the HTTP status (200, or 503 raised via
HTTPException with the same document as detail) and the body fields. -/
structure ReadyResponse where
  httpStatus : ℕ
  status : String
  available_providers : List String
  healthy_providers : List String
deriving DecidableEq, Repr

/-- `readiness_check`: healthy providers are the cached names whose status
is "healthy" and which are among the router's available providers — unless
the cache is empty, in which case the code falls back to the available
providers themselves; ready iff that list is non-empty, else a 503 whose
body lists the available and healthy sets. -/
def readiness_check (cache : List (String × String))
    (available : List String) : ReadyResponse :=
  let healthy :=
    if cache.isEmpty then available
    else (cache.filter
      (fun e => e.2 = "healthy" ∧ available.contains e.1)).map Prod.fst
  if 0 < healthy.length then ⟨200, "ready", available, healthy⟩
  else ⟨503, "not_ready", available, healthy⟩

/-! ## Theorems -/

/-- Sequential failing calls starting from a CLOSED breaker whose failure
count plus the number of calls meets the threshold exactly: the breaker
ends OPEN, at the threshold, stamped with the last failure time. -/
theorem foldl_failingCall_closed (cfg : CircuitBreakerConfig) :
    ∀ (ts : List ℚ) (cb : CircuitBreaker), cb.state = CBState.closed →
    cb.failure_count + ts.length = cfg.failure_threshold →
    ∀ hne : ts ≠ [],
    (ts.foldl (failingCall cfg) cb).state = CBState.opened ∧
    (ts.foldl (failingCall cfg) cb).failure_count = cfg.failure_threshold ∧
    (ts.foldl (failingCall cfg) cb).last_failure_time =
      some (ts.getLast hne) := by
  intro ts
  induction ts with
  | nil => intro cb h hc hne; exact absurd rfl hne
  | cons t rest ih =>
    intro cb h hc hne
    have hbegin : cbBegin cfg cb t = (cb, true) := by
      simp [cbBegin, h]
    have hstep : failingCall cfg cb t = onFailure cfg cb t := by
      simp [failingCall, hbegin]
    rw [List.foldl_cons, hstep]
    rcases rest with _ | ⟨r, rs⟩
    · have hth : cfg.failure_threshold ≤ cb.failure_count + 1 := by
        simp at hc; omega
      have hfail : onFailure cfg cb t =
          ⟨CBState.opened, cb.failure_count + 1, some t,
            cb.half_open_in_flight⟩ := by
        simp [onFailure, h, hth]
      rw [hfail]
      simp at hc
      simp [hc, List.getLast]
    · have hlt : ¬ cfg.failure_threshold ≤ cb.failure_count + 1 := by
        simp at hc; omega
      have hfail : onFailure cfg cb t =
          ⟨CBState.closed, cb.failure_count + 1, some t,
            cb.half_open_in_flight⟩ := by
        simp [onFailure, h, hlt]
      rw [hfail]
      have hrec := ih ⟨CBState.closed, cb.failure_count + 1, some t,
        cb.half_open_in_flight⟩ rfl (by simp at hc ⊢; omega)
        (List.cons_ne_nil r rs)
      rw [List.getLast_cons (List.cons_ne_nil r rs)]
      exact hrec

/-- C1: with `failure_threshold = k ≥ 1`, after exactly `k` consecutive
sequential calls whose wrapped function fails, a breaker that started
CLOSED is OPEN with `last_failure_time` stamped with the final failure
time, and any further call arriving before `recovery_timeout` seconds have
elapsed since that failure is rejected (`CircuitBreakerOpenException`)
without invoking the wrapped function. -/
theorem claim_C1_breaker_opens_at_threshold (cfg : CircuitBreakerConfig)
    (ts : List ℚ) (hth : 1 ≤ cfg.failure_threshold)
    (hlen : ts.length = cfg.failure_threshold) (hne : ts ≠ []) :
    (ts.foldl (failingCall cfg) initialBreaker).state = CBState.opened ∧
    (ts.foldl (failingCall cfg) initialBreaker).failure_count =
      cfg.failure_threshold ∧
    (ts.foldl (failingCall cfg) initialBreaker).last_failure_time =
      some (ts.getLast hne) ∧
    ∀ t2 : ℚ, t2 - ts.getLast hne < cfg.recovery_timeout →
      cbBegin cfg (ts.foldl (failingCall cfg) initialBreaker) t2 =
        (ts.foldl (failingCall cfg) initialBreaker, false) := by
  obtain ⟨h1, h2, h3⟩ := foldl_failingCall_closed cfg ts initialBreaker rfl
    (by simpa [initialBreaker] using hlen) hne
  refine ⟨h1, h2, h3, ?_⟩
  intro t2 ht
  have hres : shouldAttemptReset cfg (ts.foldl (failingCall cfg)
      initialBreaker) t2 = false := by
    rw [shouldAttemptReset, h3]
    exact decide_eq_false (not_le.mpr ht)
  simp [cbBegin, h1, hres]

/-- Witness for C1 at `failure_threshold = 2`, `recovery_timeout = 5`,
failures at times 0 and 1, further call at time 3. -/
theorem claim_C1_breaker_opens_at_threshold_witness :
    (([0, 1] : List ℚ).foldl (failingCall ⟨2, 5⟩) initialBreaker).state =
      CBState.opened ∧
    (([0, 1] : List ℚ).foldl (failingCall ⟨2, 5⟩)
      initialBreaker).last_failure_time = some 1 ∧
    cbBegin ⟨2, 5⟩ (([0, 1] : List ℚ).foldl (failingCall ⟨2, 5⟩)
      initialBreaker) 3 =
      (([0, 1] : List ℚ).foldl (failingCall ⟨2, 5⟩) initialBreaker,
        false) := by
  obtain ⟨h1, h2, h3, h4⟩ := claim_C1_breaker_opens_at_threshold ⟨2, 5⟩
    [0, 1] (by decide) (by decide) (by decide)
  exact ⟨h1, h3, h4 3 (by norm_num)⟩

/-- C3: a HALF_OPEN breaker whose probe succeeds transitions to CLOSED with
failure count 0, `last_failure_time` cleared and the in-flight flag
cleared, and the next call is passed through to the wrapped function. -/
theorem claim_C3_half_open_probe_success_closes (cfg : CircuitBreakerConfig)
    (cb : CircuitBreaker) (h : cb.state = CBState.halfOpen) (t : ℚ) :
    onSuccess cb = initialBreaker ∧
    cbBegin cfg (onSuccess cb) t = (initialBreaker, true) := by
  have h1 : onSuccess cb = initialBreaker := by
    simp [onSuccess, h, initialBreaker]
  rw [h1]
  exact ⟨rfl, by simp [cbBegin, initialBreaker]⟩

/-- Witness for C3 at a concrete HALF_OPEN breaker. -/
theorem claim_C3_half_open_probe_success_closes_witness :
    onSuccess ⟨CBState.halfOpen, 3, some 1, true⟩ = initialBreaker ∧
    cbBegin ⟨1, 5⟩ (onSuccess ⟨CBState.halfOpen, 3, some 1, true⟩) 7 =
      (initialBreaker, true) :=
  claim_C3_half_open_probe_success_closes ⟨1, 5⟩
    ⟨CBState.halfOpen, 3, some 1, true⟩ rfl 7

/-- Computation of `_on_failure` from a CLOSED breaker. -/
theorem onFailure_closed (cfg : CircuitBreakerConfig) (cb : CircuitBreaker)
    (now : ℚ) (h : cb.state = CBState.closed) :
    onFailure cfg cb now =
      if cfg.failure_threshold ≤ cb.failure_count + 1 then
        ⟨CBState.opened, cb.failure_count + 1, some now,
          cb.half_open_in_flight⟩
      else
        ⟨CBState.closed, cb.failure_count + 1, some now,
          cb.half_open_in_flight⟩ := by
  by_cases hth : cfg.failure_threshold ≤ cb.failure_count + 1 <;>
    simp [onFailure, h, hth]

/-- Computation of `_on_failure` from a HALF_OPEN breaker: the in-flight
flag is cleared either way. -/
theorem onFailure_halfOpen (cfg : CircuitBreakerConfig) (cb : CircuitBreaker)
    (now : ℚ) (h : cb.state = CBState.halfOpen) :
    onFailure cfg cb now =
      if cfg.failure_threshold ≤ cb.failure_count + 1 then
        ⟨CBState.opened, cb.failure_count + 1, some now, false⟩
      else
        ⟨CBState.halfOpen, cb.failure_count + 1, some now, false⟩ := by
  by_cases hth : cfg.failure_threshold ≤ cb.failure_count + 1 <;>
    simp [onFailure, h, hth]

/-- Computation of `_on_failure` from an OPEN breaker: count and stamp
only. -/
theorem onFailure_opened (cfg : CircuitBreakerConfig) (cb : CircuitBreaker)
    (now : ℚ) (h : cb.state = CBState.opened) :
    onFailure cfg cb now =
      ⟨CBState.opened, cb.failure_count + 1, some now,
        cb.half_open_in_flight⟩ := by
  simp [onFailure, h]

/-- Computation of the admission section from an OPEN breaker. -/
theorem cbBegin_opened (cfg : CircuitBreakerConfig) (cb : CircuitBreaker)
    (now : ℚ) (h : cb.state = CBState.opened) :
    cbBegin cfg cb now =
      if shouldAttemptReset cfg cb now then
        (⟨CBState.halfOpen, cb.failure_count, cb.last_failure_time, true⟩,
          true)
      else (cb, false) := by
  by_cases hr : shouldAttemptReset cfg cb now = true <;>
    simp [cbBegin, h, hr]

/-- The admission section never changes the breaker unless it is OPEN. -/
theorem cbBegin_fst_not_opened (cfg : CircuitBreakerConfig)
    (cb : CircuitBreaker) (now : ℚ) (h : cb.state ≠ CBState.opened) :
    (cbBegin cfg cb now).1 = cb := by
  by_cases hf : cb.state = CBState.halfOpen ∧ cb.half_open_in_flight = true <;>
    simp [cbBegin, h, hf]

/-- Unfolding of `applyEvent` on an arriving call. -/
theorem applyEvent_callArrives (cfg : CircuitBreakerConfig) (s : GState)
    (t : ℚ) :
    applyEvent cfg s (CBEvent.callArrives t) =
      if (cbBegin cfg s.cb t).2 then
        ⟨(cbBegin cfg s.cb t).1,
          s.running ++ [decide (s.cb.state = CBState.opened)]⟩
      else ⟨(cbBegin cfg s.cb t).1, s.running⟩ := rfl

/-- Unfolding of `applyEvent` on a successful resolution. -/
theorem applyEvent_finishOk (cfg : CircuitBreakerConfig) (s : GState)
    (i : ℕ) :
    applyEvent cfg s (CBEvent.finishOk i) =
      if i < s.running.length then
        ⟨onSuccess s.cb, s.running.eraseIdx i⟩
      else s := rfl

/-- Unfolding of `applyEvent` on a failed resolution. -/
theorem applyEvent_finishFail (cfg : CircuitBreakerConfig) (s : GState)
    (i : ℕ) (t : ℚ) :
    applyEvent cfg s (CBEvent.finishFail i t) =
      if i < s.running.length then
        ⟨onFailure cfg s.cb t, s.running.eraseIdx i⟩
      else s := rfl

/-- `_on_success` preserves the threshold invariant. -/
theorem inv_onSuccess (cfg : CircuitBreakerConfig) (cb : CircuitBreaker)
    (h : cb.state ≠ CBState.closed →
      cfg.failure_threshold ≤ cb.failure_count) :
    (onSuccess cb).state ≠ CBState.closed →
      cfg.failure_threshold ≤ (onSuccess cb).failure_count := by
  unfold onSuccess
  split_ifs with h1 h2 <;> simp_all

/-- `_on_failure` preserves the threshold invariant. -/
theorem inv_onFailure (cfg : CircuitBreakerConfig) (cb : CircuitBreaker)
    (now : ℚ)
    (h : cb.state ≠ CBState.closed →
      cfg.failure_threshold ≤ cb.failure_count) :
    (onFailure cfg cb now).state ≠ CBState.closed →
      cfg.failure_threshold ≤ (onFailure cfg cb now).failure_count := by
  cases hs : cb.state with
  | closed =>
    rw [onFailure_closed cfg cb now hs]
    split_ifs with h1
    · intro _
      exact h1
    · intro hcon
      exact absurd rfl hcon
  | halfOpen =>
    have hc := h (by simp [hs])
    rw [onFailure_halfOpen cfg cb now hs]
    split_ifs with h1
    · intro _
      exact h1
    · intro _
      show cfg.failure_threshold ≤ cb.failure_count + 1
      omega
  | opened =>
    have hc := h (by simp [hs])
    rw [onFailure_opened cfg cb now hs]
    intro _
    show cfg.failure_threshold ≤ cb.failure_count + 1
    omega

/-- The admission section of `call` preserves the threshold invariant. -/
theorem inv_cbBegin (cfg : CircuitBreakerConfig) (cb : CircuitBreaker)
    (now : ℚ)
    (h : cb.state ≠ CBState.closed →
      cfg.failure_threshold ≤ cb.failure_count) :
    (cbBegin cfg cb now).1.state ≠ CBState.closed →
      cfg.failure_threshold ≤ (cbBegin cfg cb now).1.failure_count := by
  by_cases hs : cb.state = CBState.opened
  · have hc := h (by simp [hs])
    rw [cbBegin_opened cfg cb now hs]
    split_ifs
    · intro _
      exact hc
    · intro _
      exact hc
  · rw [cbBegin_fst_not_opened cfg cb now hs]
    exact h

/-- Every event of a breaker history preserves the threshold invariant. -/
theorem inv_applyEvent (cfg : CircuitBreakerConfig) (s : GState)
    (e : CBEvent)
    (h : s.cb.state ≠ CBState.closed →
      cfg.failure_threshold ≤ s.cb.failure_count) :
    (applyEvent cfg s e).cb.state ≠ CBState.closed →
      cfg.failure_threshold ≤ (applyEvent cfg s e).cb.failure_count := by
  cases e with
  | callArrives t =>
    rw [applyEvent_callArrives]
    split_ifs with hb
    · exact inv_cbBegin cfg s.cb t h
    · exact inv_cbBegin cfg s.cb t h
  | finishOk i =>
    rw [applyEvent_finishOk]
    split_ifs with hb
    · exact inv_onSuccess cfg s.cb h
    · exact h
  | finishFail i t =>
    rw [applyEvent_finishFail]
    split_ifs with hb
    · exact inv_onFailure cfg s.cb t h
    · exact h

/-- In every reachable state of a breaker history, a non-CLOSED breaker
has reached the failure threshold. -/
theorem inv_runTrace (cfg : CircuitBreakerConfig) (es : List CBEvent) :
    (runTrace cfg es).cb.state ≠ CBState.closed →
      cfg.failure_threshold ≤ (runTrace cfg es).cb.failure_count := by
  suffices h : ∀ s : GState,
      (s.cb.state ≠ CBState.closed →
        cfg.failure_threshold ≤ s.cb.failure_count) →
      ((es.foldl (applyEvent cfg) s).cb.state ≠ CBState.closed →
        cfg.failure_threshold ≤
          (es.foldl (applyEvent cfg) s).cb.failure_count) by
    exact h ⟨initialBreaker, []⟩ (fun hc => absurd rfl hc)
  induction es with
  | nil => intro s h; exact h
  | cons e rest ih =>
    intro s h
    exact ih (applyEvent cfg s e) (inv_applyEvent cfg s e h)

/-- C10: in every state reachable from the freshly constructed (CLOSED)
breaker through any interleaving of calls, successes and failures, a
non-CLOSED state implies `failure_count ≥ failure_threshold`; consequently
a failure resolving while the breaker is HALF_OPEN (a failing probe)
always drives it to OPEN, because the threshold guard of `_on_failure` is
necessarily satisfied there. -/
theorem claim_C10_threshold_invariant (cfg : CircuitBreakerConfig)
    (es : List CBEvent) (t : ℚ) :
    ((runTrace cfg es).cb.state ≠ CBState.closed →
      cfg.failure_threshold ≤ (runTrace cfg es).cb.failure_count) ∧
    ((runTrace cfg es).cb.state = CBState.halfOpen →
      (onFailure cfg (runTrace cfg es).cb t).state = CBState.opened) := by
  have hinv := inv_runTrace cfg es
  refine ⟨hinv, ?_⟩
  intro hho
  have hcnt : cfg.failure_threshold ≤ (runTrace cfg es).cb.failure_count :=
    hinv (by simp [hho])
  have hth : cfg.failure_threshold ≤
      (runTrace cfg es).cb.failure_count + 1 := by omega
  rw [onFailure_halfOpen cfg _ t hho, if_pos hth]

/-- Witness for C10 at threshold 1, recovery timeout 5, on the history
"call arrives at 0, fails at 0, call arrives at 5" which leaves the
breaker HALF_OPEN with a probe in flight; the probe failing at time 6
reopens the breaker. -/
theorem claim_C10_threshold_invariant_witness :
    (1 : ℕ) ≤ (runTrace ⟨1, 5⟩
      [CBEvent.callArrives 0, CBEvent.finishFail 0 0,
        CBEvent.callArrives 5]).cb.failure_count ∧
    (onFailure ⟨1, 5⟩ (runTrace ⟨1, 5⟩
      [CBEvent.callArrives 0, CBEvent.finishFail 0 0,
        CBEvent.callArrives 5]).cb 6).state = CBState.opened := by
  have hrat : ((5 : ℚ) ≤ 5 - 0) := by norm_num
  have hrun : (runTrace ⟨1, 5⟩
      [CBEvent.callArrives 0, CBEvent.finishFail 0 0,
        CBEvent.callArrives 5]).cb =
      ⟨CBState.halfOpen, 1, some 0, true⟩ := by
    simp [runTrace, applyEvent, cbBegin, onFailure, onSuccess,
      shouldAttemptReset, initialBreaker, List.eraseIdx, hrat]
  obtain ⟨h1, h2⟩ := claim_C10_threshold_invariant ⟨1, 5⟩
    [CBEvent.callArrives 0, CBEvent.finishFail 0 0, CBEvent.callArrives 5] 6
  exact ⟨h1 (by rw [hrun]; simp), h2 (by rw [hrun])⟩

/-- C2 counterexample: the claim "while a HALF_OPEN probe is in flight
every additional call is rejected, and at no point is more than one probe
executing" fails on a concrete interleaving (threshold 1, recovery
timeout 5): two calls are admitted while CLOSED; one fails, opening the
breaker; at time 5 a probe is admitted (OPEN → HALF_OPEN); the other old
call then fails, clearing the in-flight flag and re-opening the breaker
while the probe is still executing; at time 10 a further call is admitted
as a second probe.  The final state has two probe calls in flight at
once. -/
theorem claim_C2_counterexample :
    (runTrace ⟨1, 5⟩
      [CBEvent.callArrives 0, CBEvent.callArrives 0, CBEvent.finishFail 1 0,
        CBEvent.callArrives 5, CBEvent.finishFail 0 5,
        CBEvent.callArrives 10]).running = [true, true] ∧
    (runTrace ⟨1, 5⟩
      [CBEvent.callArrives 0, CBEvent.callArrives 0, CBEvent.finishFail 1 0,
        CBEvent.callArrives 5, CBEvent.finishFail 0 5,
        CBEvent.callArrives 10]).cb =
      ⟨CBState.halfOpen, 2, some 5, true⟩ := by
  have h1 : ((5 : ℚ) ≤ 5 - 0) := by norm_num
  have h2 : ((5 : ℚ) ≤ 10 - 5) := by norm_num
  constructor <;>
    simp [runTrace, applyEvent, cbBegin, onFailure, onSuccess,
      shouldAttemptReset, initialBreaker, List.eraseIdx, h1, h2]

/-- C2 (amended): while the breaker state is HALF_OPEN with the
probe-in-flight flag set, every arriving call is rejected with
`CircuitBreakerOpenException` without invoking the wrapped function and
without any state change; a second probe can only be admitted after an
earlier-admitted call resolves as a failure, clearing the flag and
re-opening the breaker while the probe is still executing. -/
theorem claim_C2_half_open_single_flight (cfg : CircuitBreakerConfig)
    (s : GState) (t : ℚ) (h1 : s.cb.state = CBState.halfOpen)
    (h2 : s.cb.half_open_in_flight = true) :
    applyEvent cfg s (CBEvent.callArrives t) = s := by
  have hbegin : cbBegin cfg s.cb t = (s.cb, false) := by
    simp [cbBegin, h1, h2]
  rw [applyEvent_callArrives, hbegin]
  simp

/-- Witness for the amended C2 at a concrete HALF_OPEN state with the
in-flight flag set. -/
theorem claim_C2_half_open_single_flight_witness :
    applyEvent ⟨1, 5⟩ ⟨⟨CBState.halfOpen, 1, some 0, true⟩, [true]⟩
      (CBEvent.callArrives 99) =
      ⟨⟨CBState.halfOpen, 1, some 0, true⟩, [true]⟩ :=
  claim_C2_half_open_single_flight ⟨1, 5⟩
    ⟨⟨CBState.halfOpen, 1, some 0, true⟩, [true]⟩ 99 rfl rfl


/-- Unfolding of the retry loop when the attempt succeeds. -/
theorem retryGo_ok {α : Type} (cfg : RetryConfig) (f : ℕ → CallOutcome α)
    (fuel n : ℕ) (ws : List ℚ) (v : α) (hf : f n = CallOutcome.ok v) :
    retryGo cfg f fuel n ws = ⟨RetryFinal.ok v, n, ws.reverse⟩ := by
  rw [retryGo, hf]

/-- Unfolding of the retry loop when the attempt raises a non-retryable
exception: `NonRetryableException` is raised at once. -/
theorem retryGo_noRetry {α : Type} (cfg : RetryConfig)
    (f : ℕ → CallOutcome α) (fuel n : ℕ) (ws : List ℚ) (e : PyExn)
    (hf : f n = CallOutcome.err e) (hc : classify_http_exception e = false) :
    retryGo cfg f fuel n ws =
      ⟨RetryFinal.nonRetryable (nonRetryableStatus e) e, n, ws.reverse⟩ := by
  rw [retryGo, hf]
  simp [hc]

/-- Unfolding of the retry loop when a retryable failure hits the stop
condition: the original exception is re-raised. -/
theorem retryGo_stop {α : Type} (cfg : RetryConfig) (f : ℕ → CallOutcome α)
    (n : ℕ) (ws : List ℚ) (e : PyExn) (hf : f n = CallOutcome.err e)
    (hc : classify_http_exception e = true) :
    retryGo cfg f 0 n ws = ⟨RetryFinal.exhausted e, n, ws.reverse⟩ := by
  rw [retryGo, hf]
  simp [hc]

/-- Unfolding of the retry loop when a retryable failure is followed by
another attempt after the backoff wait. -/
theorem retryGo_step {α : Type} (cfg : RetryConfig) (f : ℕ → CallOutcome α)
    (fuel n : ℕ) (ws : List ℚ) (e : PyExn) (hf : f n = CallOutcome.err e)
    (hc : classify_http_exception e = true) :
    retryGo cfg f (fuel + 1) n ws =
      retryGo cfg f fuel (n + 1) (waitTime cfg n :: ws) := by
  conv_lhs => rw [retryGo]
  rw [hf]
  simp [hc]

/-- C4: `classify_http_exception` declares an HTTPException retryable iff
its status code is 408, 429 or in 500–599 — every other 4xx (and any
status outside those ranges) is non-retryable — and consequently
`execute_with_retry` over a wrapped function that always raises
HTTPException(400) invokes it exactly once regardless of `max_attempts`,
re-surfacing the failure immediately (as `NonRetryableException` with
status 400) with no backoff wait. -/
theorem claim_C4_no_retry_of_fatal_client :
    (∀ s : ℕ, classify_http_exception (PyExn.httpExc s) = true ↔
      (s = 408 ∨ s = 429 ∨ (500 ≤ s ∧ s < 600))) ∧
    (∀ (α : Type) (cfg : RetryConfig),
      execute_with_retry cfg
          (fun _ => CallOutcome.err (PyExn.httpExc 400) : ℕ → CallOutcome α) =
        ⟨RetryFinal.nonRetryable 400 (PyExn.httpExc 400), 1, []⟩) := by
  constructor
  · intro s
    simp only [classify_http_exception, classifyFallthrough,
      isNonRetryableInstance, isRetryableInstance]
    split_ifs with h1 h2 h3 <;> simp <;> omega
  · intro α cfg
    exact retryGo_noRetry cfg _ (cfg.max_attempts - 1) 1 []
      (PyExn.httpExc 400) rfl rfl

/-- The backoff waits recorded by the retry loop are exactly
`waitTime` at the attempt numbers 1, …, invocations−1. -/
theorem retryGo_waits {α : Type} (cfg : RetryConfig) (f : ℕ → CallOutcome α) :
    ∀ (fuel n : ℕ) (ws : List ℚ), 1 ≤ n →
      ws.reverse = (List.range (n - 1)).map (fun i => waitTime cfg (i + 1)) →
      (retryGo cfg f fuel n ws).waits =
        (List.range ((retryGo cfg f fuel n ws).invocations - 1)).map
          (fun i => waitTime cfg (i + 1)) := by
  intro fuel
  induction fuel with
  | zero =>
    intro n ws hn hw
    cases hf : f n with
    | ok v => rw [retryGo_ok cfg f 0 n ws v hf]; exact hw
    | err e =>
      by_cases hc : classify_http_exception e = true
      · rw [retryGo_stop cfg f n ws e hf hc]; exact hw
      · rw [retryGo_noRetry cfg f 0 n ws e hf (by simpa using hc)]; exact hw
  | succ fuel ih =>
    intro n ws hn hw
    cases hf : f n with
    | ok v => rw [retryGo_ok cfg f (fuel + 1) n ws v hf]; exact hw
    | err e =>
      by_cases hc : classify_http_exception e = true
      · have key : (waitTime cfg n :: ws).reverse =
            (List.range ((n + 1) - 1)).map (fun i => waitTime cfg (i + 1)) := by
          obtain ⟨m, rfl⟩ : ∃ m, n = m + 1 := ⟨n - 1, by omega⟩
          simp [List.reverse_cons, hw, List.range_succ]
        rw [retryGo_step cfg f fuel n ws e hf hc]
        exact ih (n + 1) (waitTime cfg n :: ws) (by omega) key
      · rw [retryGo_noRetry cfg f (fuel + 1) n ws e hf (by simpa using hc)]
        exact hw

/-- C5 counterexample: with jitter enabled (config `max_attempts = 3`,
`min_wait = 1`, `max_wait = 100`, `exponential_base = 2`), the claim says
the wait after attempt 1 equals the computed wait
`min(max_wait, min_wait·exp_base^0) = 1` plus a uniformly drawn value in
`[0, 1)`; but the wait strategy installed for `jitter = True` is
tenacity's deterministic `wait_exponential`, so the wait is exactly 1 and
in particular differs from `1 + 1/2` even though `1/2` lies in the claimed
jitter range. -/
theorem claim_C5_counterexample :
    (⟨3, 1, 100, 2, true⟩ : RetryConfig).jitter = true ∧
    (0 : ℚ) ≤ 1 / 2 ∧
    (1 / 2 : ℚ) <
      min ((⟨3, 1, 100, 2, true⟩ : RetryConfig).max_wait)
        ((⟨3, 1, 100, 2, true⟩ : RetryConfig).min_wait *
          (⟨3, 1, 100, 2, true⟩ : RetryConfig).exponential_base ^ (1 - 1)) ∧
    waitTime ⟨3, 1, 100, 2, true⟩ 1 ≠
      min ((⟨3, 1, 100, 2, true⟩ : RetryConfig).max_wait)
        ((⟨3, 1, 100, 2, true⟩ : RetryConfig).min_wait *
          (⟨3, 1, 100, 2, true⟩ : RetryConfig).exponential_base ^ (1 - 1))
        + 1 / 2 := by
  refine ⟨rfl, by norm_num, ?_, ?_⟩ <;>
    norm_num [waitTime, tenacityWaitExponential, min_def, max_def]

/-- C5 (amended): the wait recorded after a failed attempt `n` (before
attempt `n + 1`) is `waitTime cfg n`; with jitter disabled that is
`min(max_wait, min_wait·exp_base^(n−1))` as claimed, but with jitter
enabled no random value is added: the wait is tenacity's deterministic
`wait_exponential`, `max(max(0, min_wait), min(exp_base^(n−1), max_wait))`
(`min_wait` acting as a floor rather than a multiplier). -/
theorem claim_C5_backoff_formula {α : Type} (cfg : RetryConfig)
    (f : ℕ → CallOutcome α) :
    (∀ n : ℕ, cfg.jitter = false →
      waitTime cfg n =
        min (cfg.min_wait * cfg.exponential_base ^ (n - 1)) cfg.max_wait) ∧
    (∀ n : ℕ, cfg.jitter = true →
      waitTime cfg n =
        max (max 0 cfg.min_wait)
          (min (cfg.exponential_base ^ (n - 1)) cfg.max_wait)) ∧
    (execute_with_retry cfg f).waits =
      (List.range ((execute_with_retry cfg f).invocations - 1)).map
        (fun i => waitTime cfg (i + 1)) := by
  refine ⟨?_, ?_, ?_⟩
  · intro n hj
    simp [waitTime, wait_exponential_no_jitter, hj]
  · intro n hj
    simp [waitTime, tenacityWaitExponential, hj]
  · exact retryGo_waits cfg f (cfg.max_attempts - 1) 1 [] (by omega) (by simp)

/-- Witness for the amended C5 at concrete configurations (attempt 2,
jitter off and on). -/
theorem claim_C5_backoff_formula_witness :
    waitTime ⟨3, 1, 100, 2, false⟩ 2 =
      min ((1 : ℚ) * 2 ^ (2 - 1)) 100 ∧
    waitTime ⟨3, 1, 100, 2, true⟩ 2 =
      max (max 0 1) (min ((2 : ℚ) ^ (2 - 1)) 100) := by
  constructor
  · exact (claim_C5_backoff_formula ⟨3, 1, 100, 2, false⟩
      (fun _ => CallOutcome.ok ())).1 2 rfl
  · exact (claim_C5_backoff_formula ⟨3, 1, 100, 2, true⟩
      (fun _ => CallOutcome.ok ())).2.1 2 rfl


/-- C6 counterexample: with `max_attempts = 1` and a wrapped function that
always raises HTTPException(429) (respectively a timeout), the exhausted
transient outcome re-raised by tenacity reaches the generic exception
handler of `execute_with_resilience` and is surfaced as 502 — not as the
429 (respectively 504) the claim states. -/
theorem claim_C6_counterexample :
    (execute_with_resilience ⟨⟨5, 60⟩, ⟨1, 1, 10, 2, false⟩⟩ initialBreaker
        0 0
        (fun _ => CallOutcome.err (PyExn.httpExc 429) :
          ℕ → CallOutcome Unit)).1 =
      ResilienceResult.httpError 502 ∧
    (execute_with_resilience ⟨⟨5, 60⟩, ⟨1, 1, 10, 2, false⟩⟩ initialBreaker
        0 0
        (fun _ => CallOutcome.err PyExn.timeoutError :
          ℕ → CallOutcome Unit)).1 =
      ResilienceResult.httpError 502 ∧
    (502 : ℕ) ≠ 429 ∧ (502 : ℕ) ≠ 504 :=
  ⟨rfl, rfl, by decide, by decide⟩

/-- C6 (amended): the outward mapping of `execute_with_resilience` is:
503 when the circuit breaker short-circuits the call; the
`NonRetryableException`'s own status code when the retry layer classified
the failure as non-retryable; and 502 for every exhausted transient
outcome regardless of its kind — exhausted rate limits (429) and timeouts
included, since they reach the generic `except Exception` handler rather
than dedicated 429/504 mappings. -/
theorem claim_C6_status_mapping {α : Type} (cfg : ResilienceConfig)
    (cb : CircuitBreaker) (tc tf : ℚ) (f : ℕ → CallOutcome α) :
    ((cbBegin cfg.circuit_breaker cb tc).2 = false →
      execute_with_resilience cfg cb tc tf f =
        (ResilienceResult.httpError 503,
          (cbBegin cfg.circuit_breaker cb tc).1)) ∧
    (∀ e : PyExn, (cbBegin cfg.circuit_breaker cb tc).2 = true →
      (execute_with_retry cfg.retry f).result = RetryFinal.exhausted e →
      (execute_with_resilience cfg cb tc tf f).1 =
        ResilienceResult.httpError 502) ∧
    (∀ (s : ℕ) (e : PyExn), (cbBegin cfg.circuit_breaker cb tc).2 = true →
      (execute_with_retry cfg.retry f).result =
        RetryFinal.nonRetryable s e →
      (execute_with_resilience cfg cb tc tf f).1 =
        ResilienceResult.httpError s) := by
  refine ⟨?_, ?_, ?_⟩
  · intro hb
    simp [execute_with_resilience, hb]
  · intro e hb hr
    simp [execute_with_resilience, hb, hr]
  · intro s e hb hr
    simp [execute_with_resilience, hb, hr]

/-- Witness for the amended C6: two connection errors exhaust
`max_attempts = 2` and surface as 502. -/
theorem claim_C6_status_mapping_witness :
    (execute_with_resilience ⟨⟨5, 60⟩, ⟨2, 1, 10, 2, false⟩⟩ initialBreaker
        0 0
        (fun _ => CallOutcome.err PyExn.connectionError :
          ℕ → CallOutcome Unit)).1 =
      ResilienceResult.httpError 502 :=
  (claim_C6_status_mapping ⟨⟨5, 60⟩, ⟨2, 1, 10, 2, false⟩⟩ initialBreaker
      0 0 (fun _ => CallOutcome.err PyExn.connectionError)).2.1
    PyExn.connectionError rfl rfl


/-- `random.choices` over nonnegative weights with a draw inside the total
always lands on an entry of positive weight. -/
theorem weightedPick_pos :
    ∀ (l : List (String × ℚ)) (u : ℚ), (∀ p ∈ l, 0 ≤ p.2) → 0 ≤ u →
      u < (l.map Prod.snd).sum →
      ∃ p, weightedPick l u = some p ∧ p ∈ l ∧ 0 < p.2 := by
  intro l
  induction l with
  | nil =>
    intro u hnn hu hlt
    simp at hlt
    exact absurd hlt (not_lt.mpr hu)
  | cons p rest ih =>
    intro u hnn hu hlt
    cases rest with
    | nil =>
      refine ⟨p, rfl, List.mem_cons_self p [], ?_⟩
      have hup : u < p.2 := by simpa using hlt
      exact lt_of_le_of_lt hu hup
    | cons q rs =>
      have hunfold : weightedPick (p :: q :: rs) u =
          if u < p.2 then some p else weightedPick (q :: rs) (u - p.2) := rfl
      by_cases hcase : u < p.2
      · exact ⟨p, by rw [hunfold, if_pos hcase], List.mem_cons_self p _,
          lt_of_le_of_lt hu hcase⟩
      · have hp2 : p.2 ≤ u := not_lt.mp hcase
        simp only [List.map_cons, List.sum_cons] at hlt
        obtain ⟨r, hpick, hmem, hpos⟩ := ih (u - p.2)
          (fun x hx => hnn x (List.mem_cons_of_mem p hx))
          (by linarith)
          (by simp only [List.map_cons, List.sum_cons]; linarith)
        exact ⟨r, by rw [hunfold, if_neg hcase]; exact hpick,
          List.mem_cons_of_mem p hmem, hpos⟩

/-- The weighted branch of `select_provider` with a positive resolving
total returns a registered provider of positive weight. -/
theorem selectWeighted_pos (w : List (String × ℚ)) (reg : List String)
    (u : ℚ) (i : ℕ) (hnn : ∀ p ∈ w, 0 ≤ p.2) (hu : 0 ≤ u)
    (hlt : u < ((w.filter (fun p => reg.contains p.1)).map Prod.snd).sum) :
    ∃ p : String × ℚ, p ∈ w ∧ reg.contains p.1 = true ∧ 0 < p.2 ∧
      selectWeighted w reg u i = some p.1 := by
  have hnn2 : ∀ p ∈ w.filter (fun p => reg.contains p.1), 0 ≤ p.2 :=
    fun p hp => hnn p (List.mem_filter.mp hp).1
  obtain ⟨p, hpick, hmem, hpos⟩ :=
    weightedPick_pos (w.filter (fun p => reg.contains p.1)) u hnn2 hu hlt
  have hne : w.filter (fun p => reg.contains p.1) ≠ [] := by
    intro h0
    rw [h0] at hlt
    simp at hlt
    exact absurd hlt (not_lt.mpr hu)
  have hsum : ((w.filter (fun p => reg.contains p.1)).map Prod.snd).sum ≠ 0 :=
    (ne_of_lt (lt_of_le_of_lt hu hlt)).symm
  refine ⟨p, (List.mem_filter.mp hmem).1, (List.mem_filter.mp hmem).2, hpos, ?_⟩
  simp only [selectWeighted]
  rw [if_neg hne, if_neg hsum, hpick]
  rfl

/-- C7: `select_provider` returns the priority provider whenever the
priority is non-empty and resolves in the registry; with no priority it
returns None when no weighted name resolves; when the resolving weights
sum to a positive value it weighted-randomly returns a provider that is
registered and has positive weight (for any admissible draw); when they
sum to zero it uniformly returns some registered weighted provider.
Normalization at construction (`_validate_weights`) only produces
nonnegative weights, so the nonnegativity hypothesis always holds for a
constructed router. -/
theorem claim_C7_select_provider (w : List (String × ℚ))
    (reg : List String) (u : ℚ) (i : ℕ) :
    (∀ p : String, p ≠ "" → reg.contains p = true →
      select_provider w reg (some p) u i = some p) ∧
    (w.filter (fun p => reg.contains p.1) = [] →
      select_provider w reg none u i = none) ∧
    ((∀ p ∈ w, 0 ≤ p.2) → 0 ≤ u →
      u < ((w.filter (fun p => reg.contains p.1)).map Prod.snd).sum →
      ∃ p : String × ℚ, p ∈ w ∧ reg.contains p.1 = true ∧ 0 < p.2 ∧
        select_provider w reg none u i = some p.1) ∧
    (w.filter (fun p => reg.contains p.1) ≠ [] →
      ((w.filter (fun p => reg.contains p.1)).map Prod.snd).sum = 0 →
      ∃ p : String × ℚ, p ∈ w ∧ reg.contains p.1 = true ∧
        select_provider w reg none u i = some p.1) ∧
    (∀ (w0 w1 : List (String × ℚ)), validateWeights w0 = Except.ok w1 →
      ∀ p ∈ w1, 0 ≤ p.2) := by
  refine ⟨?_, ?_, ?_, ?_, ?_⟩
  · intro p hp hreg
    have hmem : p ∈ reg := by simpa using hreg
    simp [select_provider, hp, hmem]
  · intro h
    simp only [select_provider, selectWeighted]
    rw [if_pos h]
  · intro hnn hu hlt
    exact selectWeighted_pos w reg u i hnn hu hlt
  · intro hne hsum
    have hlen : 0 < (w.filter (fun p => reg.contains p.1)).length :=
      List.length_pos.mpr hne
    have hidx : i % (w.filter (fun p => reg.contains p.1)).length <
        (w.filter (fun p => reg.contains p.1)).length :=
      Nat.mod_lt _ hlen
    have hm : (w.filter (fun p => reg.contains p.1))[i %
        (w.filter (fun p => reg.contains p.1)).length] ∈
        w.filter (fun p => reg.contains p.1) := List.getElem_mem hidx
    refine ⟨(w.filter (fun p => reg.contains p.1))[i %
      (w.filter (fun p => reg.contains p.1)).length], ?_, ?_, ?_⟩
    · exact (List.mem_filter.mp hm).1
    · exact (List.mem_filter.mp hm).2
    · simp only [select_provider, selectWeighted]
      rw [if_neg hne, if_pos hsum, List.getElem?_eq_getElem hidx]
      rfl
  · intro w0 w1 hval p hp
    simp only [validateWeights] at hval
    split_ifs at hval with h1 h2 h3
    · obtain ⟨q, hq, rfl⟩ := List.mem_map.mp (by
        cases hval with
        | refl => exact hp)
      have hq2 : (0 : ℚ) ≤ q.2 := by
        by_contra hneg
        exact h2 (List.any_eq_true.mpr ⟨q, hq, by simpa using hneg⟩)
      have htot : (0 : ℚ) < (w0.map Prod.snd).sum := lt_of_not_le h3
      exact div_nonneg hq2 (le_of_lt htot)

/-- Witness for C7: the priority branch pins provider "a"; the weighted
branch over weights a↦0, b↦1 selects a positive-weight registered
provider. -/
theorem claim_C7_select_provider_witness :
    select_provider [("a", 1)] ["a"] (some "a") 0 0 = some "a" ∧
    ∃ p : String × ℚ, p ∈ [("a", (0 : ℚ)), ("b", 1)] ∧
      (["a", "b"] : List String).contains p.1 = true ∧ 0 < p.2 ∧
      select_provider [("a", 0), ("b", 1)] ["a", "b"] none 0 0 =
        some p.1 := by
  constructor
  · exact (claim_C7_select_provider [("a", 1)] ["a"] 0 0).1 "a"
      (by decide) (by decide)
  · refine (claim_C7_select_provider [("a", 0), ("b", 1)] ["a", "b"]
      0 0).2.2.1 ?_ le_rfl ?_
    · intro p hp
      rcases List.mem_cons.mp hp with rfl | hp2
      · norm_num
      · rcases List.mem_cons.mp hp2 with rfl | hp3
        · norm_num
        · exact absurd hp3 (List.not_mem_nil p)
    · have hfil : ([("a", (0 : ℚ)), ("b", 1)].filter
          (fun p => (["a", "b"] : List String).contains p.1)) =
          [("a", 0), ("b", 1)] := by decide
      rw [hfil]
      norm_num


/-- Registering under a name not yet present appends. -/
theorem registerProvider_fresh (m : List (String × Provider)) (name : String)
    (p : Provider) (h : m.any (fun q => q.1 = name) = false) :
    registerProvider m name p = m ++ [(name, p)] := by
  simp [registerProvider, h]

/-- The registration fold of `initialize_from_config`: under distinct
config names, the resulting registry names are the accumulator's names
followed by the names of the enabled configs whose construction
succeeded. -/
theorem initFold_names (factory : ProviderConfig → Except String Provider) :
    ∀ (cfgs : List ProviderConfig) (acc : List (String × Provider)),
      (cfgs.map ProviderConfig.name).Nodup →
      (∀ c ∈ cfgs, acc.any (fun q => q.1 = c.name) = false) →
      (cfgs.foldl (fun acc cfg =>
        if cfg.enabled then
          match factory cfg with
          | Except.ok p => registerProvider acc cfg.name p
          | Except.error _ => acc
        else acc) acc).map Prod.fst =
      acc.map Prod.fst ++
        (cfgs.filter (fun c => c.enabled &&
          match factory c with
          | Except.ok _ => true
          | Except.error _ => false)).map ProviderConfig.name := by
  intro cfgs
  induction cfgs with
  | nil =>
    intro acc hnd hfree
    simp
  | cons c rest ih =>
    intro acc hnd hfree
    rw [List.foldl_cons]
    have hcons : c.name ∉ rest.map ProviderConfig.name ∧
        (rest.map ProviderConfig.name).Nodup := by
      rw [List.map_cons] at hnd
      exact List.nodup_cons.mp hnd
    by_cases hen : c.enabled
    · cases hfac : factory c with
      | ok p =>
        have hfresh := hfree c (List.mem_cons_self c rest)
        rw [if_pos hen]
        dsimp only
        rw [registerProvider_fresh acc c.name p hfresh]
        have hfree2 : ∀ d ∈ rest,
            (acc ++ [(c.name, p)]).any (fun q => q.1 = d.name) = false := by
          intro d hd
          have h1 := hfree d (List.mem_cons_of_mem c hd)
          have h2 : c.name ≠ d.name := fun he =>
            hcons.1 (he ▸ List.mem_map_of_mem ProviderConfig.name hd)
          simp [List.any_append, h1, h2]
        rw [ih (acc ++ [(c.name, p)]) hcons.2 hfree2]
        simp [List.filter_cons, hen, hfac]
      | error msg =>
        rw [if_pos hen]
        dsimp only
        rw [ih acc hcons.2 (fun d hd => hfree d (List.mem_cons_of_mem c hd))]
        simp [List.filter_cons, hen, hfac]
    · rw [if_neg hen,
        ih acc hcons.2 (fun d hd => hfree d (List.mem_cons_of_mem c hd))]
      simp [List.filter_cons, hen]

/-- C8 counterexample: re-initializing a registry holding adapter "a"
performs no `close` call at all — the dropped adapter's HTTP client is not
closed (`initialize_from_config` only calls `self._providers.clear()`). -/
theorem claim_C8_counterexample :
    ("a" ∉ (initialize_from_config (fun c => Except.ok ⟨c.name, false⟩)
      [("a", ⟨"a", false⟩)] []).closeCalls) ∧
    (initialize_from_config (fun c => Except.ok ⟨c.name, false⟩)
      [("a", ⟨"a", false⟩)] []).closeCalls = [] ∧
    ("a", (⟨"a", false⟩ : Provider)) ∈
      [("a", (⟨"a", false⟩ : Provider))] :=
  ⟨by simp [initialize_from_config], rfl, List.mem_cons_self _ _⟩

/-- C8 (amended): `initialize_from_config` drops every previously
registered adapter without closing it (teardown is the separate
`close_all`), then registers exactly one adapter per enabled configuration
whose construction succeeds, skipping disabled configurations and
continuing past individual construction failures, so a failed construction
leaves every other enabled provider registered. -/
theorem claim_C8_initialize_from_config
    (factory : ProviderConfig → Except String Provider)
    (old : List (String × Provider)) (cfgs : List ProviderConfig)
    (hnd : (cfgs.map ProviderConfig.name).Nodup) :
    (initialize_from_config factory old cfgs).closeCalls = [] ∧
    initialize_from_config factory old cfgs =
      initialize_from_config factory [] cfgs ∧
    (initialize_from_config factory old cfgs).registry.map Prod.fst =
      (cfgs.filter (fun c => c.enabled &&
        match factory c with
        | Except.ok _ => true
        | Except.error _ => false)).map ProviderConfig.name := by
  refine ⟨rfl, rfl, ?_⟩
  exact initFold_names factory cfgs [] hnd (fun c _ => rfl)

/-- Witness for the amended C8: configs a (enabled), b (enabled but whose
construction fails), c (disabled), d (enabled) over a stale registry
holding "z": no close call happens and exactly a and d end up
registered. -/
theorem claim_C8_initialize_from_config_witness :
    (initialize_from_config
      (fun c => if c.name = "b" then Except.error "construction failed"
        else Except.ok ⟨c.name, false⟩)
      [("z", ⟨"z", false⟩)]
      [⟨"a", true⟩, ⟨"b", true⟩, ⟨"c", false⟩, ⟨"d", true⟩]).closeCalls =
      [] ∧
    (initialize_from_config
      (fun c => if c.name = "b" then Except.error "construction failed"
        else Except.ok ⟨c.name, false⟩)
      [("z", ⟨"z", false⟩)]
      [⟨"a", true⟩, ⟨"b", true⟩, ⟨"c", false⟩,
        ⟨"d", true⟩]).registry.map Prod.fst = ["a", "d"] := by
  obtain ⟨h1, h2, h3⟩ := claim_C8_initialize_from_config
    (fun c => if c.name = "b" then Except.error "construction failed"
      else Except.ok ⟨c.name, false⟩)
    [("z", ⟨"z", false⟩)]
    [⟨"a", true⟩, ⟨"b", true⟩, ⟨"c", false⟩, ⟨"d", true⟩] (by decide)
  refine ⟨h1, ?_⟩
  rw [h3]
  decide

/-- C9 counterexample: with an empty health cache and one available
provider, `/ready` reports 200 (ready) although no upstream has a current
healthy entry in the cache — the claimed 503 does not occur, because the
code falls back to the router's available providers when the cache is
empty. -/
theorem claim_C9_counterexample :
    readiness_check [] ["mock"] = ⟨200, "ready", ["mock"], ["mock"]⟩ ∧
    (200 : ℕ) ≠ 503 :=
  ⟨rfl, by decide⟩

/-- C9 (amended): when the health cache is non-empty, `/ready` returns 200
iff some cached entry is "healthy" and its name is among the available
providers; when the cache is empty it returns 200 iff any provider is
available at all (fallback); in every other case it returns 503 with a
body reporting "not_ready" and listing the provider sets. -/
theorem claim_C9_readiness (cache : List (String × String))
    (avail : List String) :
    (cache ≠ [] →
      ((readiness_check cache avail).httpStatus = 200 ↔
        ∃ e ∈ cache, e.2 = "healthy" ∧ avail.contains e.1 = true)) ∧
    (cache = [] →
      ((readiness_check cache avail).httpStatus = 200 ↔ avail ≠ [])) ∧
    ((readiness_check cache avail).httpStatus = 200 ∨
      ((readiness_check cache avail).httpStatus = 503 ∧
        (readiness_check cache avail).status = "not_ready" ∧
        (readiness_check cache avail).available_providers = avail)) := by
  refine ⟨?_, ?_, ?_⟩
  · intro hne
    have hie : cache.isEmpty = false := by
      cases cache with
      | nil => exact absurd rfl hne
      | cons e rest => rfl
    have key : (0 < (cache.filter
        (fun e => decide (e.2 = "healthy" ∧ avail.contains e.1 = true))).length)
        ↔ ∃ e ∈ cache, e.2 = "healthy" ∧ avail.contains e.1 = true := by
      rw [List.length_pos_iff_exists_mem]
      constructor
      · rintro ⟨a, ha⟩
        exact ⟨a, (List.mem_filter.mp ha).1,
          by simpa using (List.mem_filter.mp ha).2⟩
      · rintro ⟨e, he, hpe⟩
        exact ⟨e, List.mem_filter.mpr ⟨he, by simpa using hpe⟩⟩
    simp only [readiness_check, hie, Bool.false_eq_true, if_false]
    by_cases hlen : 0 < (cache.filter
        (fun e => decide (e.2 = "healthy" ∧ avail.contains e.1 = true))).length
    · rw [if_pos (by simpa using hlen)]
      simpa using key.mp hlen
    · rw [if_neg (by simpa using hlen)]
      constructor
      · intro hcon
        simp at hcon
      · intro hex
        exact absurd (key.mpr hex) hlen
  · intro hc
    subst hc
    simp only [readiness_check, List.isEmpty_nil, if_true]
    by_cases hlen : 0 < avail.length
    · rw [if_pos hlen]
      simp [List.length_pos.mp hlen]
    · rw [if_neg hlen]
      constructor
      · intro hcon
        simp at hcon
      · intro hne
        exact absurd (List.length_pos.mpr hne) hlen
  · simp only [readiness_check]
    by_cases hlen : 0 < (if cache.isEmpty then avail
        else (cache.filter (fun e =>
          decide (e.2 = "healthy" ∧ avail.contains e.1 = true))).map
          Prod.fst).length
    · left
      rw [if_pos hlen]
    · right
      rw [if_neg hlen]
      exact ⟨rfl, rfl, rfl⟩

/-- Witness for the amended C9: a cache holding a healthy entry for the
available provider "a" yields 200. -/
theorem claim_C9_readiness_witness :
    (readiness_check [("a", "healthy")] ["a"]).httpStatus = 200 := by
  have h := (claim_C9_readiness [("a", "healthy")] ["a"]).1 (by decide)
  exact h.mpr ⟨("a", "healthy"), List.mem_cons_self _ _, rfl, by decide⟩

end Gateway
